import Mathlib

/-!
Verification development for the svdimagecompress-rs repository
(`src/compress.rs` and `src/imagewrapper.rs`).

Matrices of 32-bit floats are embedded as dense matrices over ℚ:
a `Mat` records its dimensions and a total entry function whose values
outside the stated bounds are normalised to 0 (junk-free canonical form).
The external SVD routine from the faer library (`compute_svd_req` /
`compute_svd`) is a black-box numeric primitive; it is embedded as an
oracle `SvdOracle` supplying the workspace-requirement outcome and the
entry functions that `compute_svd` writes into the caller-allocated
`s` (k×1), `u` (m×m) and `v` (n×n) buffers.
-/

/-- Dense matrix: `nrows × ncols` with entries in ℚ (embedding of
faer's `Mat<f32>` / `MatRef<f32>`); entries outside the bounds are 0. -/
structure Mat where
  nrows : Nat
  ncols : Nat
  entry : Nat → Nat → ℚ

/-- Embedding of `Mat::from_fn(m, n, f)`: an `m × n` matrix whose `(i, j)`
entry is `f i j` (zero outside bounds). -/
def Mat.from_fn (m n : Nat) (f : Nat → Nat → ℚ) : Mat :=
  ⟨m, n, fun i j => if i < m ∧ j < n then f i j else 0⟩

/-- Embedding of faer's `submatrix(row_start, col_start, nrows, ncols)`:
the `nr × nc` block of `A` starting at row `i0`, column `j0`. -/
def Mat.submatrix (A : Mat) (i0 j0 nr nc : Nat) : Mat :=
  ⟨nr, nc, fun i j => if i < nr ∧ j < nc then A.entry (i0 + i) (j0 + j) else 0⟩

/-- Embedding of faer's `transpose()`. -/
def Mat.transpose (A : Mat) : Mat :=
  ⟨A.ncols, A.nrows, fun i j => if i < A.ncols ∧ j < A.nrows then A.entry j i else 0⟩

/-- Embedding of faer's matrix product `A * B`. -/
def Mat.mul (A B : Mat) : Mat :=
  ⟨A.nrows, B.ncols, fun i j =>
    if i < A.nrows ∧ j < B.ncols then
      ∑ l in Finset.range A.ncols, A.entry i l * B.entry l j
    else 0⟩

/-- Embedding of `enum SvdApproxError` from `src/compress.rs`.
As in the source, `InvalidRank(k, rank)` carries the maximum legal rank
`k = min(m, n)` first and the requested rank second. -/
inductive SvdApproxError where
  | InvalidRank (k rank : Nat)
  | ComputeReqFailed
deriving DecidableEq

/-- Oracle for the external SVD primitive (faer's `compute_svd_req` and
`compute_svd`): `req_ok m n` tells whether the workspace-requirement
computation for an `m × n` input succeeds, and `svdS`/`svdU`/`svdV` are
the entry functions `compute_svd` writes into the caller-allocated
`s` (k×1), `u` (m×m), `v` (n×n) buffers for a given input matrix. -/
structure SvdOracle where
  req_ok : Nat → Nat → Bool
  svdS : Mat → Nat → Nat → ℚ
  svdU : Mat → Nat → Nat → ℚ
  svdV : Mat → Nat → Nat → ℚ

/-- The truncation-and-reconstruction expression from the tail of
`fn svdapprox` (`src/compress.rs` lines 77–97), named so that the control
flow of `svdapprox` can be reasoned about case by case. `s`, `u`, `v` are
the buffers filled by `compute_svd`; if `bad` the trailing (smallest)
`rank` singular triplets are selected, otherwise the leading (largest)
ones; the result is `u_new * s_new * v_new.transpose()`. -/
def svdTruncate (o : SvdOracle) (mat : Mat) (rank : Nat) (bad : Bool) : Mat :=
  let m := mat.nrows
  let n := mat.ncols
  let k := min m n
  let s := Mat.from_fn k 1 (o.svdS mat)
  let u := Mat.from_fn m m (o.svdU mat)
  let v := Mat.from_fn n n (o.svdV mat)
  let tri :=
    if bad then
      (Mat.from_fn rank rank fun i j =>
        if i = j then s.entry (k - rank + i) 0 else 0,
       u.submatrix 0 (m - rank) m rank,
       v.submatrix 0 (n - rank) n rank)
    else
      (Mat.from_fn rank rank fun i j => if i = j then s.entry i 0 else 0,
       u.submatrix 0 0 m rank,
       v.submatrix 0 0 n rank)
  (tri.2.1.mul tri.1).mul tri.2.2.transpose

/-- Embedding of `fn svdapprox(mat, rank, bad)` from `src/compress.rs`,
parameterised by the SVD oracle. Control flow mirrors the source: rank
guard, identity short-circuit at `rank == k` (`to_owned` of a `MatRef` is
the same matrix), workspace-requirement failure surfaced as
`ComputeReqFailed`, and otherwise the reconstruction `svdTruncate`. -/
def svdapprox (o : SvdOracle) (mat : Mat) (rank : Nat) (bad : Bool) :
    Except SvdApproxError Mat :=
  let m := mat.nrows
  let n := mat.ncols
  let k := min m n
  if rank ≤ 0 ∨ k < rank then
    .error (.InvalidRank k rank)
  else if rank = k then
    .ok mat
  else if o.req_ok m n then
    .ok (svdTruncate o mat rank bad)
  else
    .error .ComputeReqFailed

/-- Embedding of `struct GreyImageWrapper` from `src/imagewrapper.rs`. -/
structure GreyImageWrapper where
  mat : Mat
  width : Nat
  height : Nat

/-- Embedding of `struct RgbImageWrapper` from `src/imagewrapper.rs`
(`mats: [Mat<f32>; 3]` as a function from `Fin 3`). -/
structure RgbImageWrapper where
  mats : Fin 3 → Mat
  width : Nat
  height : Nat

/-- Embedding of `GreyImageWrapper::compress`: the `?` operator on the
`svdapprox` call is the explicit match on its result. -/
def GreyImageWrapper.compress (o : SvdOracle) (self : GreyImageWrapper)
    (rank : Nat) : Except SvdApproxError GreyImageWrapper :=
  match svdapprox o self.mat rank false with
  | .error e => .error e
  | .ok mat => .ok ⟨mat, self.width, self.height⟩

/-- Embedding of `GreyImageWrapper::compress_bad`. -/
def GreyImageWrapper.compress_bad (o : SvdOracle) (self : GreyImageWrapper)
    (rank : Nat) : Except SvdApproxError GreyImageWrapper :=
  match svdapprox o self.mat rank true with
  | .error e => .error e
  | .ok mat => .ok ⟨mat, self.width, self.height⟩

/-- Scheduling oracle for rayon's `par_iter().map(..)
.collect::<Result<Vec<_>, _>>()` over the three channels. On all-success
the collection is deterministic and assembles in channel-index order;
when one or more items are `Err`, rayon returns an unspecified one of
the errors encountered, depending on scheduling. `pick` is the error a
given schedule selects for a triple of per-channel results, constrained
by `pick_mem` to be the error of some failing channel — so every
behaviour rayon's contract admits is realised by some `RaceOracle`. -/
structure RaceOracle where
  pick : Except SvdApproxError Mat → Except SvdApproxError Mat →
    Except SvdApproxError Mat → SvdApproxError
  pick_mem : ∀ r0 r1 r2 : Except SvdApproxError Mat,
    (∃ e, r0 = .error e ∨ r1 = .error e ∨ r2 = .error e) →
    r0 = .error (pick r0 r1 r2) ∨ r1 = .error (pick r0 r1 r2) ∨
      r2 = .error (pick r0 r1 r2)

/-- rayon's `collect::<Result<Vec<_>, _>>` over the three per-channel
results: on all-success it assembles in channel-index order (rayon
guarantees index correspondence regardless of completion order); if any
item failed, the collection fails with the schedule-selected failing
channel's error. -/
def rgbCollect (ro : RaceOracle) (r0 r1 r2 : Except SvdApproxError Mat)
    (w h : Nat) : Except SvdApproxError RgbImageWrapper :=
  match r0, r1, r2 with
  | .ok m0, .ok m1, .ok m2 => .ok ⟨![m0, m1, m2], w, h⟩
  | e0, e1, e2 => .error (ro.pick e0 e1 e2)

/-- Embedding of `RgbImageWrapper::compress`: `svdapprox` mapped over the
three channel matrices, collected by `rgbCollect` under the scheduling
oracle `ro`. -/
def RgbImageWrapper.compress (o : SvdOracle) (ro : RaceOracle)
    (self : RgbImageWrapper) (rank : Nat) :
    Except SvdApproxError RgbImageWrapper :=
  rgbCollect ro (svdapprox o (self.mats 0) rank false)
    (svdapprox o (self.mats 1) rank false)
    (svdapprox o (self.mats 2) rank false) self.width self.height

/-- Embedding of `RgbImageWrapper::compress_bad` (same collection model
as `RgbImageWrapper.compress`, with `bad = true`). -/
def RgbImageWrapper.compress_bad (o : SvdOracle) (ro : RaceOracle)
    (self : RgbImageWrapper) (rank : Nat) :
    Except SvdApproxError RgbImageWrapper :=
  rgbCollect ro (svdapprox o (self.mats 0) rank true)
    (svdapprox o (self.mats 1) rank true)
    (svdapprox o (self.mats 2) rank true) self.width self.height

/-- Analysis helper: does a per-channel result carry an error? -/
def isError (r : Except SvdApproxError Mat) : Bool :=
  match r with
  | .error _ => true
  | .ok _ => false

/-- Analysis helper: the first channel (in channel order 0, 1, 2) whose
`svdapprox` call fails, if any. -/
def firstFailingChannel (o : SvdOracle) (c : RgbImageWrapper) (rank : Nat)
    (bad : Bool) : Option (Fin 3) :=
  if isError (svdapprox o (c.mats 0) rank bad) then some 0
  else if isError (svdapprox o (c.mats 1) rank bad) then some 1
  else if isError (svdapprox o (c.mats 2) rank bad) then some 2
  else none

/- Case lemmas for the control flow of `svdapprox`. -/

/-- An out-of-range rank takes the first early return. -/
lemma svdapprox_invalid (o : SvdOracle) (M : Mat) (r : Nat) (bad : Bool)
    (h : r ≤ 0 ∨ min M.nrows M.ncols < r) :
    svdapprox o M r bad = .error (.InvalidRank (min M.nrows M.ncols) r) := by
  unfold svdapprox
  rw [if_pos h]

/-- The identity short-circuit at `rank = min(m, n)`. -/
lemma svdapprox_noop (o : SvdOracle) (M : Mat) (r : Nat) (bad : Bool)
    (h1 : ¬(r ≤ 0 ∨ min M.nrows M.ncols < r)) (h2 : r = min M.nrows M.ncols) :
    svdapprox o M r bad = .ok M := by
  unfold svdapprox
  rw [if_neg h1, if_pos h2]

/-- Workspace-requirement failure surfaces as `ComputeReqFailed`. -/
lemma svdapprox_reqfail (o : SvdOracle) (M : Mat) (r : Nat) (bad : Bool)
    (h1 : ¬(r ≤ 0 ∨ min M.nrows M.ncols < r)) (h2 : r ≠ min M.nrows M.ncols)
    (h3 : o.req_ok M.nrows M.ncols = false) :
    svdapprox o M r bad = .error .ComputeReqFailed := by
  unfold svdapprox
  rw [if_neg h1, if_neg h2, if_neg (by simp [h3])]

/-- The main branch: a strictly truncating valid rank with a successful
workspace requirement yields the reconstruction. -/
lemma svdapprox_main (o : SvdOracle) (M : Mat) (r : Nat) (bad : Bool)
    (h1 : ¬(r ≤ 0 ∨ min M.nrows M.ncols < r)) (h2 : r ≠ min M.nrows M.ncols)
    (h3 : o.req_ok M.nrows M.ncols = true) :
    svdapprox o M r bad = .ok (svdTruncate o M r bad) := by
  unfold svdapprox
  rw [if_neg h1, if_neg h2, if_pos h3]

/-- The reconstruction has the input's shape. -/
lemma svdTruncate_shape (o : SvdOracle) (M : Mat) (r : Nat) (bad : Bool) :
    (svdTruncate o M r bad).nrows = M.nrows ∧
    (svdTruncate o M r bad).ncols = M.ncols := by
  cases bad <;> exact ⟨rfl, rfl⟩

/-- Successful `svdapprox` preserves the input's shape (all three success
paths: identity short-circuit and both reconstruction modes). -/
lemma svdapprox_ok_shape (o : SvdOracle) (M R : Mat) (r : Nat) (bad : Bool)
    (h : svdapprox o M r bad = .ok R) :
    R.nrows = M.nrows ∧ R.ncols = M.ncols := by
  by_cases hg : r ≤ 0 ∨ min M.nrows M.ncols < r
  · rw [svdapprox_invalid o M r bad hg] at h
    exact absurd h (by simp)
  · by_cases hk : r = min M.nrows M.ncols
    · rw [svdapprox_noop o M r bad hg hk] at h
      rw [Except.ok.injEq] at h
      rw [← h]
      exact ⟨rfl, rfl⟩
    · cases h3 : o.req_ok M.nrows M.ncols with
      | false =>
        rw [svdapprox_reqfail o M r bad hg hk h3] at h
        exact absurd h (by simp)
      | true =>
        rw [svdapprox_main o M r bad hg hk h3] at h
        rw [Except.ok.injEq] at h
        rw [← h]
        exact svdTruncate_shape o M r bad

/-- Eta for length-3 vectors of matrices. -/
lemma vec3_eta (f : Fin 3 → Mat) : (![f 0, f 1, f 2] : Fin 3 → Mat) = f := by
  funext i
  fin_cases i <;> rfl

/-- Successful grey compression: the output matrix is the approximation of
the input matrix and the metadata fields pass through. -/
lemma grey_compress_ok (o : SvdOracle) (g : GreyImageWrapper) (r : Nat)
    (out : GreyImageWrapper) (h : GreyImageWrapper.compress o g r = .ok out) :
    svdapprox o g.mat r false = .ok out.mat ∧
    out.width = g.width ∧ out.height = g.height := by
  cases hc : svdapprox o g.mat r false with
  | error e => simp [GreyImageWrapper.compress, hc] at h
  | ok R =>
    simp only [GreyImageWrapper.compress, hc, Except.ok.injEq] at h
    rw [← h]
    exact ⟨rfl, rfl, rfl⟩

/-- Successful grey worst-mode compression, same statement. -/
lemma grey_compress_bad_ok (o : SvdOracle) (g : GreyImageWrapper) (r : Nat)
    (out : GreyImageWrapper) (h : GreyImageWrapper.compress_bad o g r = .ok out) :
    svdapprox o g.mat r true = .ok out.mat ∧
    out.width = g.width ∧ out.height = g.height := by
  cases hc : svdapprox o g.mat r true with
  | error e => simp [GreyImageWrapper.compress_bad, hc] at h
  | ok R =>
    simp only [GreyImageWrapper.compress_bad, hc, Except.ok.injEq] at h
    rw [← h]
    exact ⟨rfl, rfl, rfl⟩

/-- Inversion of a successful collection: all three per-channel results
were `Ok` and the output is their index-ordered assembly. -/
lemma rgbCollect_ok (ro : RaceOracle) (r0 r1 r2 : Except SvdApproxError Mat)
    (w h : Nat) (out : RgbImageWrapper)
    (hc : rgbCollect ro r0 r1 r2 w h = .ok out) :
    ∃ m0 m1 m2, r0 = .ok m0 ∧ r1 = .ok m1 ∧ r2 = .ok m2 ∧
      out = ⟨![m0, m1, m2], w, h⟩ := by
  cases r0 with
  | error e => simp [rgbCollect] at hc
  | ok m0 =>
    cases r1 with
    | error e => simp [rgbCollect] at hc
    | ok m1 =>
      cases r2 with
      | error e => simp [rgbCollect] at hc
      | ok m2 =>
        simp only [rgbCollect, Except.ok.injEq] at hc
        exact ⟨m0, m1, m2, rfl, rfl, rfl, hc.symm⟩

/-- If any per-channel result failed, the collection fails, and the
returned error is verbatim the error of some failing channel (which one
depends on the scheduling oracle). -/
lemma rgbCollect_error (ro : RaceOracle) (r0 r1 r2 : Except SvdApproxError Mat)
    (w h : Nat) (e : SvdApproxError)
    (he : r0 = .error e ∨ r1 = .error e ∨ r2 = .error e) :
    rgbCollect ro r0 r1 r2 w h = .error (ro.pick r0 r1 r2) ∧
    (r0 = .error (ro.pick r0 r1 r2) ∨ r1 = .error (ro.pick r0 r1 r2) ∨
      r2 = .error (ro.pick r0 r1 r2)) := by
  refine ⟨?_, ro.pick_mem r0 r1 r2 ⟨e, he⟩⟩
  cases r0 with
  | error e0 => rfl
  | ok m0 =>
    cases r1 with
    | error e1 => rfl
    | ok m1 =>
      cases r2 with
      | error e2 => rfl
      | ok m2 =>
        rcases he with h' | h' | h' <;> exact absurd h' (by simp)

/-- Successful RGB compression: each output channel is the approximation
of the corresponding input channel, and the metadata passes through. -/
lemma rgb_compress_ok (o : SvdOracle) (ro : RaceOracle)
    (c : RgbImageWrapper) (r : Nat) (out : RgbImageWrapper)
    (h : RgbImageWrapper.compress o ro c r = .ok out) :
    (∀ i : Fin 3, svdapprox o (c.mats i) r false = .ok (out.mats i)) ∧
    out.width = c.width ∧ out.height = c.height := by
  obtain ⟨m0, m1, m2, h0, h1, h2, hout⟩ :=
    rgbCollect_ok ro _ _ _ c.width c.height out h
  subst hout
  refine ⟨?_, rfl, rfl⟩
  intro i
  fin_cases i
  · exact h0
  · exact h1
  · exact h2

/-- Successful RGB worst-mode compression, same statement. -/
lemma rgb_compress_bad_ok (o : SvdOracle) (ro : RaceOracle)
    (c : RgbImageWrapper) (r : Nat) (out : RgbImageWrapper)
    (h : RgbImageWrapper.compress_bad o ro c r = .ok out) :
    (∀ i : Fin 3, svdapprox o (c.mats i) r true = .ok (out.mats i)) ∧
    out.width = c.width ∧ out.height = c.height := by
  obtain ⟨m0, m1, m2, h0, h1, h2, hout⟩ :=
    rgbCollect_ok ro _ _ _ c.width c.height out h
  subst hout
  refine ⟨?_, rfl, rfl⟩
  intro i
  fin_cases i
  · exact h0
  · exact h1
  · exact h2

/-- A full requested rank on a nonempty matrix takes the identity
short-circuit. -/
lemma svdapprox_identity (o : SvdOracle) (M : Mat) (r : Nat) (bad : Bool)
    (hm : 1 ≤ M.nrows) (hn : 1 ≤ M.ncols) (hr : r = min M.nrows M.ncols) :
    svdapprox o M r bad = .ok M := by
  have hk : 1 ≤ min M.nrows M.ncols := le_min hm hn
  exact svdapprox_noop o M r bad (by omega) hr

/- Concrete objects used by the witnesses and counterexamples. -/

/-- A trivial SVD oracle (the workspace requirement always succeeds and
the decomposition buffers are filled with zeros). -/
def oTriv : SvdOracle :=
  ⟨fun _ _ => true, fun _ _ _ => 0, fun _ _ _ => 0, fun _ _ _ => 0⟩

/-- The all-ones `m × n` matrix. -/
def matOne (m n : Nat) : Mat := Mat.from_fn m n fun _ _ => 1

/-- A 3×3 three-channel image wrapper. -/
def rgbC3 : RgbImageWrapper := ⟨![matOne 3 3, matOne 3 3, matOne 3 3], 3, 3⟩

/-- A concrete admissible schedule: the race is won by the lowest-index
failing channel. -/
def roFirst : RaceOracle where
  pick r0 r1 r2 :=
    match r0, r1, r2 with
    | .error e, _, _ => e
    | .ok _, .error e, _ => e
    | .ok _, .ok _, .error e => e
    | .ok _, .ok _, .ok _ => .ComputeReqFailed
  pick_mem := by
    intro r0 r1 r2 hex
    cases r0 with
    | error e => exact Or.inl rfl
    | ok m0 =>
      cases r1 with
      | error e => exact Or.inr (Or.inl rfl)
      | ok m1 =>
        cases r2 with
        | error e => exact Or.inr (Or.inr rfl)
        | ok m2 =>
          obtain ⟨e, he⟩ := hex
          rcases he with h' | h' | h' <;> exact absurd h' (by simp)

/-- C1: for every matrix with `m, n ≥ 1` and requested rank exactly
`min(m, n)`, `svdapprox` (hence `compress` and `compress_bad`) returns
the input unchanged, in both modes, and the result does not depend on the
decomposition oracle (the primitive is not invoked). -/
theorem claim1_identity_noop (o o' : SvdOracle) (ro : RaceOracle)
    (bad : Bool) :
    (∀ (M : Mat) (r : Nat), 1 ≤ M.nrows → 1 ≤ M.ncols →
      r = min M.nrows M.ncols →
      svdapprox o M r bad = .ok M ∧
      svdapprox o M r bad = svdapprox o' M r bad) ∧
    (∀ (g : GreyImageWrapper) (r : Nat), 1 ≤ g.mat.nrows → 1 ≤ g.mat.ncols →
      r = min g.mat.nrows g.mat.ncols →
      GreyImageWrapper.compress o g r = .ok g ∧
      GreyImageWrapper.compress_bad o g r = .ok g) ∧
    (∀ (c : RgbImageWrapper) (r : Nat),
      (∀ i : Fin 3, 1 ≤ (c.mats i).nrows ∧ 1 ≤ (c.mats i).ncols ∧
        r = min (c.mats i).nrows (c.mats i).ncols) →
      RgbImageWrapper.compress o ro c r = .ok c ∧
      RgbImageWrapper.compress_bad o ro c r = .ok c) := by
  refine ⟨fun M r hm hn hr => ⟨svdapprox_identity o M r bad hm hn hr,
      (svdapprox_identity o M r bad hm hn hr).trans
        (svdapprox_identity o' M r bad hm hn hr).symm⟩,
    fun g r hm hn hr => ⟨?_, ?_⟩, fun c r hc => ⟨?_, ?_⟩⟩
  · simp [GreyImageWrapper.compress, svdapprox_identity o g.mat r false hm hn hr]
  · simp [GreyImageWrapper.compress_bad, svdapprox_identity o g.mat r true hm hn hr]
  · simp only [RgbImageWrapper.compress,
      svdapprox_identity o (c.mats 0) r false (hc 0).1 (hc 0).2.1 (hc 0).2.2,
      svdapprox_identity o (c.mats 1) r false (hc 1).1 (hc 1).2.1 (hc 1).2.2,
      svdapprox_identity o (c.mats 2) r false (hc 2).1 (hc 2).2.1 (hc 2).2.2,
      rgbCollect]
    rw [vec3_eta]
  · simp only [RgbImageWrapper.compress_bad,
      svdapprox_identity o (c.mats 0) r true (hc 0).1 (hc 0).2.1 (hc 0).2.2,
      svdapprox_identity o (c.mats 1) r true (hc 1).1 (hc 1).2.1 (hc 1).2.2,
      svdapprox_identity o (c.mats 2) r true (hc 2).1 (hc 2).2.1 (hc 2).2.2,
      rgbCollect]
    rw [vec3_eta]

/-- Witness for C1 at a concrete 2×3 matrix and a concrete 3×3 RGB
wrapper. -/
theorem claim1_identity_noop_witness :
    svdapprox oTriv (matOne 2 3) 2 true = .ok (matOne 2 3) ∧
    RgbImageWrapper.compress oTriv roFirst rgbC3 3 = .ok rgbC3 :=
  ⟨((claim1_identity_noop oTriv oTriv roFirst true).1 (matOne 2 3) 2
      (by decide) (by decide) (by decide)).1,
   ((claim1_identity_noop oTriv oTriv roFirst true).2.2 rgbC3 3
      (by decide)).1⟩

/-- C2: `svdapprox` returns `InvalidRank` carrying `max = min(m, n)` and
the requested rank exactly when `rank < 1` or `rank > min(m, n)`, and in
that case the result does not depend on the decomposition oracle (failure
occurs before the primitive is invoked). -/
theorem claim2_invalid_rank (M : Mat) (r : Nat) (bad : Bool)
    (_hm : 1 ≤ M.nrows) (_hn : 1 ≤ M.ncols) :
    (∀ o : SvdOracle,
      svdapprox o M r bad = .error (.InvalidRank (min M.nrows M.ncols) r) ↔
        r < 1 ∨ min M.nrows M.ncols < r) ∧
    (r < 1 ∨ min M.nrows M.ncols < r →
      ∀ o o' : SvdOracle, svdapprox o M r bad = svdapprox o' M r bad) := by
  constructor
  · intro o
    constructor
    · intro h
      by_contra hno
      have hg : ¬(r ≤ 0 ∨ min M.nrows M.ncols < r) := by omega
      by_cases hk : r = min M.nrows M.ncols
      · rw [svdapprox_noop o M r bad hg hk] at h
        exact absurd h (by simp)
      · cases h3 : o.req_ok M.nrows M.ncols with
        | true =>
          rw [svdapprox_main o M r bad hg hk h3] at h
          exact absurd h (by simp)
        | false =>
          rw [svdapprox_reqfail o M r bad hg hk h3] at h
          simp at h
    · intro h
      exact svdapprox_invalid o M r bad (by omega)
  · intro h o o'
    rw [svdapprox_invalid o M r bad (by omega),
      svdapprox_invalid o' M r bad (by omega)]

/-- Witness for C2: rank 0 and rank `min(m, n) + 1` both fail on a
concrete 2×3 matrix, with the error carrying `max = 2`. -/
theorem claim2_invalid_rank_witness :
    svdapprox oTriv (matOne 2 3) 0 false = .error (.InvalidRank 2 0) ∧
    svdapprox oTriv (matOne 2 3) 3 false = .error (.InvalidRank 2 3) :=
  ⟨((claim2_invalid_rank (matOne 2 3) 0 false (by decide) (by decide)).1
      oTriv).mpr (by decide),
   ((claim2_invalid_rank (matOne 2 3) 3 false (by decide) (by decide)).1
      oTriv).mpr (by decide)⟩

/-- C4: whenever `svdapprox` returns a matrix (which it does exactly on
the valid ranks, in either mode), that matrix has the same shape `m × n`
as the input. -/
theorem claim4_dimension_preservation (o : SvdOracle) (M : Mat) (r : Nat)
    (bad : Bool) (R : Mat) (h : svdapprox o M r bad = .ok R) :
    R.nrows = M.nrows ∧ R.ncols = M.ncols :=
  svdapprox_ok_shape o M R r bad h

/-- Witness for C4 through the truncating branch on a concrete 2×3
matrix at rank 1. -/
theorem claim4_dimension_preservation_witness :
    (svdTruncate oTriv (matOne 2 3) 1 false).nrows = (matOne 2 3).nrows ∧
    (svdTruncate oTriv (matOne 2 3) 1 false).ncols = (matOne 2 3).ncols :=
  claim4_dimension_preservation oTriv (matOne 2 3) 1 false
    (svdTruncate oTriv (matOne 2 3) 1 false) rfl

/-- C6: on success, output channel `i` of `RgbImageWrapper::compress` /
`compress_bad` is exactly the approximation of input channel `i`, for
each `i` — the collection is indexed by channel identity, so the result
channel order always matches the input channel order. -/
theorem claim6_channel_order (o : SvdOracle) (ro : RaceOracle)
    (c : RgbImageWrapper) (r : Nat) :
    (∀ out : RgbImageWrapper, RgbImageWrapper.compress o ro c r = .ok out →
      ∀ i : Fin 3, svdapprox o (c.mats i) r false = .ok (out.mats i)) ∧
    (∀ out : RgbImageWrapper, RgbImageWrapper.compress_bad o ro c r = .ok out →
      ∀ i : Fin 3, svdapprox o (c.mats i) r true = .ok (out.mats i)) :=
  ⟨fun out h => (rgb_compress_ok o ro c r out h).1,
   fun out h => (rgb_compress_bad_ok o ro c r out h).1⟩

/-- Witness for C6 on a concrete 3×3 RGB wrapper. -/
theorem claim6_channel_order_witness :
    svdapprox oTriv (rgbC3.mats 0) 3 false = .ok (rgbC3.mats 0) :=
  (claim6_channel_order oTriv roFirst rgbC3 3).1 rgbC3 rfl 0

/-- C7: on every successful `compress` / `compress_bad` call (greyscale
or color), the `width` and `height` fields of the output wrapper equal
those of the input wrapper. -/
theorem claim7_metadata_passthrough (o : SvdOracle) (ro : RaceOracle)
    (r : Nat) :
    (∀ g out : GreyImageWrapper,
      GreyImageWrapper.compress o g r = .ok out →
      out.width = g.width ∧ out.height = g.height) ∧
    (∀ g out : GreyImageWrapper,
      GreyImageWrapper.compress_bad o g r = .ok out →
      out.width = g.width ∧ out.height = g.height) ∧
    (∀ c out : RgbImageWrapper,
      RgbImageWrapper.compress o ro c r = .ok out →
      out.width = c.width ∧ out.height = c.height) ∧
    (∀ c out : RgbImageWrapper,
      RgbImageWrapper.compress_bad o ro c r = .ok out →
      out.width = c.width ∧ out.height = c.height) :=
  ⟨fun g out h => (grey_compress_ok o g r out h).2,
   fun g out h => (grey_compress_bad_ok o g r out h).2,
   fun c out h => (rgb_compress_ok o ro c r out h).2,
   fun c out h => (rgb_compress_bad_ok o ro c r out h).2⟩

/-- A concrete 2×3 greyscale wrapper (matrix shape matches metadata). -/
def greyG : GreyImageWrapper := ⟨matOne 2 3, 3, 2⟩

/-- Witness for C7 through the truncating branch at rank 1. -/
theorem claim7_metadata_passthrough_witness :
    (⟨svdTruncate oTriv (matOne 2 3) 1 false, 3, 2⟩ :
      GreyImageWrapper).width = greyG.width ∧
    (⟨svdTruncate oTriv (matOne 2 3) 1 false, 3, 2⟩ :
      GreyImageWrapper).height = greyG.height :=
  (claim7_metadata_passthrough oTriv roFirst 1).1 greyG
    ⟨svdTruncate oTriv (matOne 2 3) 1 false, 3, 2⟩ rfl

/-- Shape-metadata invariant of `GreyImageWrapper` (established by
`GreyImageWrapper::load`, which builds `Mat::from_fn(height, width, ..)`):
the pixel matrix has `height` rows and `width` columns. -/
def GreyImageWrapper.wf (g : GreyImageWrapper) : Prop :=
  g.mat.nrows = g.height ∧ g.mat.ncols = g.width

/-- Shape-metadata invariant of `RgbImageWrapper` (established by
`RgbImageWrapper::load`): all three channel matrices have `height` rows
and `width` columns. -/
def RgbImageWrapper.wf (c : RgbImageWrapper) : Prop :=
  ∀ i : Fin 3, (c.mats i).nrows = c.height ∧ (c.mats i).ncols = c.width

/-- The matrix-building step of `GreyImageWrapper::load`
(`src/imagewrapper.rs` lines 32–37), with the decoded image abstracted to
its pixel function `pix x y` and dimensions: the wrapper holds
`Mat::from_fn(height, width, |i, j| pixel(j, i))`. -/
def GreyImageWrapper.ofDecoded (width height : Nat) (pix : Nat → Nat → ℚ) :
    GreyImageWrapper :=
  ⟨Mat.from_fn height width fun i j => pix j i, width, height⟩

/-- The matrix-building step of `RgbImageWrapper::load`
(`src/imagewrapper.rs` lines 69–80): channel `c` holds
`Mat::from_fn(height, width, |j, i| pixel(i, j)[c])`. -/
def RgbImageWrapper.ofDecoded (width height : Nat)
    (pix : Fin 3 → Nat → Nat → ℚ) : RgbImageWrapper :=
  ⟨fun c => Mat.from_fn height width fun j i => pix c i j, width, height⟩

/-- C9: the pixel-matrix-shape-matches-metadata invariant holds for
freshly loaded wrappers of both types and is preserved by every
successful `compress` / `compress_bad`. -/
theorem claim9_wf_preserved (o : SvdOracle) (ro : RaceOracle) (r : Nat) :
    (∀ (w h : Nat) (pix : Nat → Nat → ℚ),
      (GreyImageWrapper.ofDecoded w h pix).wf) ∧
    (∀ (w h : Nat) (pix : Fin 3 → Nat → Nat → ℚ),
      (RgbImageWrapper.ofDecoded w h pix).wf) ∧
    (∀ g out : GreyImageWrapper, g.wf →
      GreyImageWrapper.compress o g r = .ok out → out.wf) ∧
    (∀ g out : GreyImageWrapper, g.wf →
      GreyImageWrapper.compress_bad o g r = .ok out → out.wf) ∧
    (∀ c out : RgbImageWrapper, c.wf →
      RgbImageWrapper.compress o ro c r = .ok out → out.wf) ∧
    (∀ c out : RgbImageWrapper, c.wf →
      RgbImageWrapper.compress_bad o ro c r = .ok out → out.wf) := by
  refine ⟨fun w h pix => ⟨rfl, rfl⟩, fun w h pix i => ⟨rfl, rfl⟩,
    fun g out hwf h => ?_, fun g out hwf h => ?_,
    fun c out hwf h => ?_, fun c out hwf h => ?_⟩
  · obtain ⟨hmat, hw, hh⟩ := grey_compress_ok o g r out h
    obtain ⟨s1, s2⟩ := svdapprox_ok_shape o g.mat out.mat r false hmat
    exact ⟨s1.trans (hwf.1.trans hh.symm), s2.trans (hwf.2.trans hw.symm)⟩
  · obtain ⟨hmat, hw, hh⟩ := grey_compress_bad_ok o g r out h
    obtain ⟨s1, s2⟩ := svdapprox_ok_shape o g.mat out.mat r true hmat
    exact ⟨s1.trans (hwf.1.trans hh.symm), s2.trans (hwf.2.trans hw.symm)⟩
  · obtain ⟨hmat, hw, hh⟩ := rgb_compress_ok o ro c r out h
    intro i
    obtain ⟨s1, s2⟩ := svdapprox_ok_shape o (c.mats i) (out.mats i) r false
      (hmat i)
    exact ⟨s1.trans (((hwf i).1).trans hh.symm),
      s2.trans (((hwf i).2).trans hw.symm)⟩
  · obtain ⟨hmat, hw, hh⟩ := rgb_compress_bad_ok o ro c r out h
    intro i
    obtain ⟨s1, s2⟩ := svdapprox_ok_shape o (c.mats i) (out.mats i) r true
      (hmat i)
    exact ⟨s1.trans (((hwf i).1).trans hh.symm),
      s2.trans (((hwf i).2).trans hw.symm)⟩

/-- Witness for C9 through the truncating branch at rank 1 on a concrete
well-formed 2×3 greyscale wrapper. -/
theorem claim9_wf_preserved_witness :
    (⟨svdTruncate oTriv (matOne 2 3) 1 false, 3, 2⟩ : GreyImageWrapper).wf :=
  (claim9_wf_preserved oTriv roFirst 1).2.2.1 greyG
    ⟨svdTruncate oTriv (matOne 2 3) 1 false, 3, 2⟩ ⟨rfl, rfl⟩ rfl

/-- Three-channel wrapper whose channel 0 cannot be approximated at
rank 3 (it is 2×2) while channels 1 and 2 can. -/
def rgbA : RgbImageWrapper := ⟨![matOne 2 2, matOne 3 3, matOne 3 3], 3, 3⟩

/-- Three-channel wrapper whose channel 2 cannot be approximated at
rank 3 (it is 2×2) while channels 0 and 1 can. -/
def rgbB : RgbImageWrapper := ⟨![matOne 3 3, matOne 3 3, matOne 2 2], 3, 3⟩

/-- C5 counterexample: `RgbImageWrapper::compress` does not report which
channel failed. Under any concrete schedule (here `roFirst`), on `rgbA`
(only channel 0 fails) and `rgbB` (only channel 2 fails) the returned
value is the identical error `InvalidRank(2, 3)`, so no function of the
result can recover the failing channel. -/
theorem claim5_counterexample :
    ¬ ∃ channelOf : SvdApproxError → Fin 3,
        ∀ (c : RgbImageWrapper) (j : Fin 3) (e : SvdApproxError),
          firstFailingChannel oTriv c 3 false = some j →
          RgbImageWrapper.compress oTriv roFirst c 3 = .error e →
          channelOf e = j := by
  rintro ⟨f, hf⟩
  have h1 : f (.InvalidRank 2 3) = 0 := hf rgbA 0 (.InvalidRank 2 3) rfl rfl
  have h2 : f (.InvalidRank 2 3) = 2 := hf rgbB 2 (.InvalidRank 2 3) rfl rfl
  rw [h1] at h2
  exact absurd h2 (by decide)

/-- C5 as amended: for every scheduling of the parallel collection, if
any channel's approximation fails then the whole `compress` /
`compress_bad` fails, returning verbatim the error of some failing
channel (no new error kind, no partial result); which failing channel's
error is returned is unspecified when several fail, and the error value
itself does not identify the channel. -/
theorem claim5_error_propagation (o : SvdOracle) (ro : RaceOracle)
    (c : RgbImageWrapper) (r : Nat) :
    (∀ (i : Fin 3) (e : SvdApproxError),
      svdapprox o (c.mats i) r false = .error e →
      ∃ e', RgbImageWrapper.compress o ro c r = .error e' ∧
        ∃ j : Fin 3, svdapprox o (c.mats j) r false = .error e') ∧
    (∀ (i : Fin 3) (e : SvdApproxError),
      svdapprox o (c.mats i) r true = .error e →
      ∃ e', RgbImageWrapper.compress_bad o ro c r = .error e' ∧
        ∃ j : Fin 3, svdapprox o (c.mats j) r true = .error e') := by
  constructor
  · intro i e he
    have hd : svdapprox o (c.mats 0) r false = .error e ∨
        svdapprox o (c.mats 1) r false = .error e ∨
        svdapprox o (c.mats 2) r false = .error e := by
      fin_cases i
      · exact Or.inl he
      · exact Or.inr (Or.inl he)
      · exact Or.inr (Or.inr he)
    obtain ⟨hc, hmem⟩ := rgbCollect_error ro _ _ _ c.width c.height e hd
    refine ⟨_, hc, ?_⟩
    rcases hmem with h' | h' | h'
    · exact ⟨0, h'⟩
    · exact ⟨1, h'⟩
    · exact ⟨2, h'⟩
  · intro i e he
    have hd : svdapprox o (c.mats 0) r true = .error e ∨
        svdapprox o (c.mats 1) r true = .error e ∨
        svdapprox o (c.mats 2) r true = .error e := by
      fin_cases i
      · exact Or.inl he
      · exact Or.inr (Or.inl he)
      · exact Or.inr (Or.inr he)
    obtain ⟨hc, hmem⟩ := rgbCollect_error ro _ _ _ c.width c.height e hd
    refine ⟨_, hc, ?_⟩
    rcases hmem with h' | h' | h'
    · exact ⟨0, h'⟩
    · exact ⟨1, h'⟩
    · exact ⟨2, h'⟩

/-- Witness for the amended C5: on `rgbA` at rank 3 (channel 0 fails)
the whole compression fails with some failing channel's error. -/
theorem claim5_error_propagation_witness :
    ∃ e', RgbImageWrapper.compress oTriv roFirst rgbA 3 = .error e' ∧
      ∃ j : Fin 3, svdapprox oTriv (rgbA.mats j) 3 false = .error e' :=
  (claim5_error_propagation oTriv roFirst rgbA 3).1 0 (.InvalidRank 2 3) rfl

/- Dimension and entry lemmas for the matrix operations. -/

@[simp]
lemma Mat.from_fn_nrows (m n : Nat) (f : Nat → Nat → ℚ) :
    (Mat.from_fn m n f).nrows = m := rfl

@[simp]
lemma Mat.from_fn_ncols (m n : Nat) (f : Nat → Nat → ℚ) :
    (Mat.from_fn m n f).ncols = n := rfl

@[simp]
lemma Mat.submatrix_nrows (A : Mat) (i0 j0 nr nc : Nat) :
    (A.submatrix i0 j0 nr nc).nrows = nr := rfl

@[simp]
lemma Mat.submatrix_ncols (A : Mat) (i0 j0 nr nc : Nat) :
    (A.submatrix i0 j0 nr nc).ncols = nc := rfl

@[simp]
lemma Mat.transpose_nrows (A : Mat) : A.transpose.nrows = A.ncols := rfl

@[simp]
lemma Mat.transpose_ncols (A : Mat) : A.transpose.ncols = A.nrows := rfl

@[simp]
lemma Mat.mul_nrows (A B : Mat) : (A.mul B).nrows = A.nrows := rfl

@[simp]
lemma Mat.mul_ncols (A B : Mat) : (A.mul B).ncols = B.ncols := rfl

lemma Mat.from_fn_entry (m n : Nat) (f : Nat → Nat → ℚ) (i j : Nat)
    (hi : i < m) (hj : j < n) : (Mat.from_fn m n f).entry i j = f i j := by
  simp [Mat.from_fn, hi, hj]

lemma Mat.submatrix_entry (A : Mat) (i0 j0 nr nc i j : Nat)
    (hi : i < nr) (hj : j < nc) :
    (A.submatrix i0 j0 nr nc).entry i j = A.entry (i0 + i) (j0 + j) := by
  simp [Mat.submatrix, hi, hj]

lemma Mat.transpose_entry (A : Mat) (i j : Nat)
    (hi : i < A.ncols) (hj : j < A.nrows) :
    A.transpose.entry i j = A.entry j i := by
  simp [Mat.transpose, hi, hj]

lemma Mat.mul_entry (A B : Mat) (i j : Nat) (hi : i < A.nrows)
    (hj : j < B.ncols) :
    (A.mul B).entry i j =
      ∑ l in Finset.range A.ncols, A.entry i l * B.entry l j := by
  simp [Mat.mul, hi, hj]

/-- Entry formula for the reconstruction pattern
`A_sub · diag(d) · B_sub^T` shared by both truncation modes: `A_sub` is
the `r`-column block of `A` starting at column `cu`, `B_sub` the
`r`-column block of `B` starting at column `cv`. -/
lemma sub_diag_sub_entry (A B : Mat) (d : Nat → ℚ) (r cu cv i j : Nat)
    (hi : i < A.nrows) (hj : j < B.nrows) :
    (((A.submatrix 0 cu A.nrows r).mul
        (Mat.from_fn r r fun x y => if x = y then d x else 0)).mul
      (B.submatrix 0 cv B.nrows r).transpose).entry i j =
    ∑ l in Finset.range r, A.entry i (cu + l) * d l * B.entry j (cv + l) := by
  refine (Mat.mul_entry
    ((A.submatrix 0 cu A.nrows r).mul
      (Mat.from_fn r r fun x y => if x = y then d x else 0))
    (B.submatrix 0 cv B.nrows r).transpose i j hi hj).trans ?_
  refine Finset.sum_congr rfl fun b hb => ?_
  rw [Finset.mem_range] at hb
  rw [Mat.mul_entry (A.submatrix 0 cu A.nrows r)
    (Mat.from_fn r r fun x y => if x = y then d x else 0) i b hi hb]
  rw [Mat.transpose_entry (B.submatrix 0 cv B.nrows r) b j hb hj]
  rw [Mat.submatrix_entry B 0 cv B.nrows r j b hj hb]
  have hsum : (∑ a in Finset.range (A.submatrix 0 cu A.nrows r).ncols,
      (A.submatrix 0 cu A.nrows r).entry i a *
        (Mat.from_fn r r fun x y => if x = y then d x else 0).entry a b) =
      A.entry i (cu + b) * d b := by
    have hc : (A.submatrix 0 cu A.nrows r).ncols = r := rfl
    rw [hc]
    rw [Finset.sum_eq_single_of_mem b (Finset.mem_range.mpr hb)]
    · rw [Mat.from_fn_entry r r _ b b hb hb]
      rw [if_pos rfl]
      rw [Mat.submatrix_entry A 0 cu A.nrows r i b hi hb, Nat.zero_add]
    · intro a ha hne
      rw [Mat.from_fn_entry r r _ a b (Finset.mem_range.mp ha) hb]
      rw [if_neg hne, mul_zero]
  rw [hsum, Nat.zero_add]

/-- C3: for a strictly truncating valid rank in worst mode, `svdapprox`
succeeds with a matrix of the input's shape whose entries are the
reconstruction `U_sub · diag(Σ_sub) · V_sub^T` built from the `rank`
smallest singular values — singular-value indices
`[min(m,n) - rank, min(m,n))` together with the trailing `rank` columns
of `U` and of `V`. -/
theorem claim3_worst_mode_selection (o : SvdOracle) (M : Mat) (r : Nat)
    (h1 : 1 ≤ r) (h2 : r < min M.nrows M.ncols)
    (hreq : o.req_ok M.nrows M.ncols = true) :
    ∃ R : Mat, svdapprox o M r true = .ok R ∧
      R.nrows = M.nrows ∧ R.ncols = M.ncols ∧
      ∀ i j : Nat, i < M.nrows → j < M.ncols →
        R.entry i j =
          ∑ l in Finset.range r,
            o.svdU M i (M.nrows - r + l) *
              o.svdS M (min M.nrows M.ncols - r + l) 0 *
              o.svdV M j (M.ncols - r + l) := by
  have hg : ¬(r ≤ 0 ∨ min M.nrows M.ncols < r) := by omega
  have hk : r ≠ min M.nrows M.ncols := by omega
  refine ⟨svdTruncate o M r true, svdapprox_main o M r true hg hk hreq,
    (svdTruncate_shape o M r true).1, (svdTruncate_shape o M r true).2, ?_⟩
  intro i j hi hj
  have hfinal : (∑ l in Finset.range r,
      (Mat.from_fn M.nrows M.nrows (o.svdU M)).entry i (M.nrows - r + l) *
        (Mat.from_fn (min M.nrows M.ncols) 1 (o.svdS M)).entry
          (min M.nrows M.ncols - r + l) 0 *
        (Mat.from_fn M.ncols M.ncols (o.svdV M)).entry j (M.ncols - r + l)) =
      ∑ l in Finset.range r,
        o.svdU M i (M.nrows - r + l) *
          o.svdS M (min M.nrows M.ncols - r + l) 0 *
          o.svdV M j (M.ncols - r + l) := by
    refine Finset.sum_congr rfl fun l hl => ?_
    rw [Finset.mem_range] at hl
    rw [Mat.from_fn_entry M.nrows M.nrows (o.svdU M) i (M.nrows - r + l) hi
        (by omega),
      Mat.from_fn_entry (min M.nrows M.ncols) 1 (o.svdS M)
        (min M.nrows M.ncols - r + l) 0 (by omega) Nat.one_pos,
      Mat.from_fn_entry M.ncols M.ncols (o.svdV M) j (M.ncols - r + l) hj
        (by omega)]
  exact (sub_diag_sub_entry (Mat.from_fn M.nrows M.nrows (o.svdU M))
    (Mat.from_fn M.ncols M.ncols (o.svdV M))
    (fun a => (Mat.from_fn (min M.nrows M.ncols) 1 (o.svdS M)).entry
      (min M.nrows M.ncols - r + a) 0)
    r (M.nrows - r) (M.ncols - r) i j hi hj).trans hfinal

/-- Witness for C3 on a concrete 2×3 matrix at rank 1. -/
theorem claim3_worst_mode_selection_witness :
    ∃ R : Mat, svdapprox oTriv (matOne 2 3) 1 true = .ok R ∧
      R.nrows = (matOne 2 3).nrows ∧ R.ncols = (matOne 2 3).ncols ∧
      ∀ i j : Nat, i < (matOne 2 3).nrows → j < (matOne 2 3).ncols →
        R.entry i j =
          ∑ l in Finset.range 1,
            oTriv.svdU (matOne 2 3) i ((matOne 2 3).nrows - 1 + l) *
              oTriv.svdS (matOne 2 3)
                (min (matOne 2 3).nrows (matOne 2 3).ncols - 1 + l) 0 *
              oTriv.svdV (matOne 2 3) j ((matOne 2 3).ncols - 1 + l) :=
  claim3_worst_mode_selection oTriv (matOne 2 3) 1 (by decide) (by decide) rfl

/- Bounds-checked interpreter of the reconstruction, mirroring every
runtime check faer performs in the tail of `svdapprox`: unsigned
subtractions (`k - rank`, `m - rank`, `n - rank`), the indexing
`s[(k - rank + i, 0)]` inside `Mat::from_fn`, the `submatrix` offset
checks, and the dimension compatibility of the two products. Each check
that would panic (or underflow) in the source returns `none` here. -/

/-- Checked unsigned subtraction (usize `a - b` panics on underflow). -/
def subChecked (a b : Nat) : Option Nat :=
  if b ≤ a then some (a - b) else none

/-- Checked entry access (faer indexing panics out of bounds). -/
def Mat.getChecked (A : Mat) (i j : Nat) : Option ℚ :=
  if i < A.nrows ∧ j < A.ncols then some (A.entry i j) else none

/-- Checked `Mat::from_fn`: materialising the matrix evaluates the
closure at every in-bounds position, so it fails iff any evaluation
fails. -/
def fromFnChecked (m n : Nat) (f : Nat → Nat → Option ℚ) : Option Mat :=
  if ∀ i, i < m → ∀ j, j < n → (f i j).isSome = true then
    some (Mat.from_fn m n fun i j => (f i j).getD 0)
  else none

/-- Checked `submatrix`: faer asserts the block lies inside the matrix. -/
def submatrixChecked (A : Mat) (i0 j0 nr nc : Nat) : Option Mat :=
  if i0 + nr ≤ A.nrows ∧ j0 + nc ≤ A.ncols then
    some (A.submatrix i0 j0 nr nc)
  else none

/-- Checked product: faer asserts the inner dimensions agree. -/
def mulChecked (A B : Mat) : Option Mat :=
  if B.nrows = A.ncols then some (A.mul B) else none

/-- The worst-mode (`bad = true`) reconstruction with every runtime
check of the source made explicit; `none` marks a panic (or unsigned
underflow). -/
def svdTruncateCheckedWorst (o : SvdOracle) (mat : Mat) (rank : Nat) :
    Option Mat :=
  let m := mat.nrows
  let n := mat.ncols
  let k := min m n
  let s := Mat.from_fn k 1 (o.svdS mat)
  let u := Mat.from_fn m m (o.svdU mat)
  let v := Mat.from_fn n n (o.svdV mat)
  (subChecked k rank).bind fun drop =>
    (fromFnChecked rank rank fun i j =>
      if i = j then s.getChecked (drop + i) 0 else some 0).bind fun s_new =>
      (subChecked m rank).bind fun cu =>
        (submatrixChecked u 0 cu m rank).bind fun u_new =>
          (subChecked n rank).bind fun cv =>
            (submatrixChecked v 0 cv n rank).bind fun v_new =>
              (mulChecked u_new s_new).bind fun us =>
                (mulChecked us v_new.transpose).bind fun res => some res

/-- The best-mode (`bad = false`) reconstruction with every runtime
check of the source made explicit. -/
def svdTruncateCheckedBest (o : SvdOracle) (mat : Mat) (rank : Nat) :
    Option Mat :=
  let m := mat.nrows
  let n := mat.ncols
  let k := min m n
  let s := Mat.from_fn k 1 (o.svdS mat)
  let u := Mat.from_fn m m (o.svdU mat)
  let v := Mat.from_fn n n (o.svdV mat)
  (fromFnChecked rank rank fun i j =>
    if i = j then s.getChecked i 0 else some 0).bind fun s_new =>
    (submatrixChecked u 0 0 m rank).bind fun u_new =>
      (submatrixChecked v 0 0 n rank).bind fun v_new =>
        (mulChecked u_new s_new).bind fun us =>
          (mulChecked us v_new.transpose).bind fun res => some res

/-- The reconstruction tail of `svdapprox` through the checked
interpreter, mode selected as in the source. -/
def svdTruncateChecked (o : SvdOracle) (mat : Mat) (rank : Nat)
    (bad : Bool) : Option Mat :=
  if bad then svdTruncateCheckedWorst o mat rank
  else svdTruncateCheckedBest o mat rank

/-- `svdapprox` with the reconstruction run through the checked
interpreter; the early returns perform no checked operation. -/
def svdapproxChecked (o : SvdOracle) (mat : Mat) (rank : Nat)
    (bad : Bool) : Option (Except SvdApproxError Mat) :=
  let m := mat.nrows
  let n := mat.ncols
  let k := min m n
  if rank ≤ 0 ∨ k < rank then
    some (.error (.InvalidRank k rank))
  else if rank = k then
    some (.ok mat)
  else if o.req_ok m n then
    (svdTruncateChecked o mat rank bad).bind fun res => some (.ok res)
  else
    some (.error .ComputeReqFailed)

lemma subChecked_eq (a b : Nat) (h : b ≤ a) : subChecked a b = some (a - b) := by
  unfold subChecked
  rw [if_pos h]

lemma getChecked_eq (A : Mat) (i j : Nat) (hi : i < A.nrows)
    (hj : j < A.ncols) : A.getChecked i j = some (A.entry i j) := by
  unfold Mat.getChecked
  rw [if_pos ⟨hi, hj⟩]

lemma fromFnChecked_eq (m n : Nat) (f : Nat → Nat → Option ℚ)
    (g : Nat → Nat → ℚ)
    (hfg : ∀ i, i < m → ∀ j, j < n → f i j = some (g i j)) :
    fromFnChecked m n f = some (Mat.from_fn m n g) := by
  unfold fromFnChecked
  rw [if_pos (fun i hi j hj => by rw [hfg i hi j hj]; rfl)]
  unfold Mat.from_fn
  refine congrArg some (congrArg (Mat.mk m n) (funext fun i => funext fun j => ?_))
  by_cases hij : i < m ∧ j < n
  · rw [if_pos hij, if_pos hij]
    show (f i j).getD 0 = g i j
    rw [hfg i hij.1 j hij.2]
    rfl
  · rw [if_neg hij, if_neg hij]

lemma submatrixChecked_eq (A : Mat) (i0 j0 nr nc : Nat)
    (h1 : i0 + nr ≤ A.nrows) (h2 : j0 + nc ≤ A.ncols) :
    submatrixChecked A i0 j0 nr nc = some (A.submatrix i0 j0 nr nc) := by
  unfold submatrixChecked
  rw [if_pos ⟨h1, h2⟩]

lemma mulChecked_eq (A B : Mat) (h : B.nrows = A.ncols) :
    mulChecked A B = some (A.mul B) := by
  unfold mulChecked
  rw [if_pos h]

/-- Under the guard `1 ≤ rank < min(m, n)` every check in the
reconstruction passes: no unsigned subtraction underflows, the
singular-value indexing stays in bounds, the submatrix blocks fit, and
the product dimensions agree. -/
lemma svdTruncateChecked_eq (o : SvdOracle) (M : Mat) (r : Nat) (bad : Bool)
    (_h1 : 1 ≤ r) (h2 : r < min M.nrows M.ncols) :
    svdTruncateChecked o M r bad = some (svdTruncate o M r bad) := by
  have e1 : subChecked (min M.nrows M.ncols) r =
      some (min M.nrows M.ncols - r) := subChecked_eq _ _ (by omega)
  have e2 : subChecked M.nrows r = some (M.nrows - r) :=
    subChecked_eq _ _ (by omega)
  have e3 : subChecked M.ncols r = some (M.ncols - r) :=
    subChecked_eq _ _ (by omega)
  have e4 : fromFnChecked r r (fun i j =>
      if i = j then
        (Mat.from_fn (min M.nrows M.ncols) 1 (o.svdS M)).getChecked
          (min M.nrows M.ncols - r + i) 0
      else some 0) =
      some (Mat.from_fn r r fun i j =>
        if i = j then
          (Mat.from_fn (min M.nrows M.ncols) 1 (o.svdS M)).entry
            (min M.nrows M.ncols - r + i) 0
        else 0) := by
    refine fromFnChecked_eq r r _ _ fun i hi j hj => ?_
    by_cases hij : i = j
    · rw [if_pos hij, if_pos hij,
        getChecked_eq _ _ _ (by simp only [Mat.from_fn_nrows]; omega)
          (by simp only [Mat.from_fn_ncols]; omega)]
    · rw [if_neg hij, if_neg hij]
  have e4' : fromFnChecked r r (fun i j =>
      if i = j then
        (Mat.from_fn (min M.nrows M.ncols) 1 (o.svdS M)).getChecked i 0
      else some 0) =
      some (Mat.from_fn r r fun i j =>
        if i = j then
          (Mat.from_fn (min M.nrows M.ncols) 1 (o.svdS M)).entry i 0
        else 0) := by
    refine fromFnChecked_eq r r _ _ fun i hi j hj => ?_
    by_cases hij : i = j
    · rw [if_pos hij, if_pos hij,
        getChecked_eq _ _ _ (by simp only [Mat.from_fn_nrows]; omega)
          (by simp only [Mat.from_fn_ncols]; omega)]
    · rw [if_neg hij, if_neg hij]
  have e5 : submatrixChecked (Mat.from_fn M.nrows M.nrows (o.svdU M)) 0
      (M.nrows - r) M.nrows r =
      some ((Mat.from_fn M.nrows M.nrows (o.svdU M)).submatrix 0
        (M.nrows - r) M.nrows r) :=
    submatrixChecked_eq _ _ _ _ _ (by simp only [Mat.from_fn_nrows]; omega)
      (by simp only [Mat.from_fn_ncols]; omega)
  have e5' : submatrixChecked (Mat.from_fn M.nrows M.nrows (o.svdU M)) 0 0
      M.nrows r =
      some ((Mat.from_fn M.nrows M.nrows (o.svdU M)).submatrix 0 0
        M.nrows r) :=
    submatrixChecked_eq _ _ _ _ _ (by simp only [Mat.from_fn_nrows]; omega)
      (by simp only [Mat.from_fn_ncols]; omega)
  have e6 : submatrixChecked (Mat.from_fn M.ncols M.ncols (o.svdV M)) 0
      (M.ncols - r) M.ncols r =
      some ((Mat.from_fn M.ncols M.ncols (o.svdV M)).submatrix 0
        (M.ncols - r) M.ncols r) :=
    submatrixChecked_eq _ _ _ _ _ (by simp only [Mat.from_fn_nrows]; omega)
      (by simp only [Mat.from_fn_ncols]; omega)
  have e6' : submatrixChecked (Mat.from_fn M.ncols M.ncols (o.svdV M)) 0 0
      M.ncols r =
      some ((Mat.from_fn M.ncols M.ncols (o.svdV M)).submatrix 0 0
        M.ncols r) :=
    submatrixChecked_eq _ _ _ _ _ (by simp only [Mat.from_fn_nrows]; omega)
      (by simp only [Mat.from_fn_ncols]; omega)
  cases bad with
  | true =>
    unfold svdTruncateChecked
    rw [if_pos rfl]
    simp only [svdTruncateCheckedWorst, e1, Option.some_bind, e4, e2, e5,
      e3, e6]
    rw [mulChecked_eq, Option.some_bind, mulChecked_eq, Option.some_bind]
    all_goals rfl
  | false =>
    unfold svdTruncateChecked
    rw [if_neg (by simp)]
    simp only [svdTruncateCheckedBest, e4', Option.some_bind, e5', e6']
    rw [mulChecked_eq, Option.some_bind, mulChecked_eq, Option.some_bind]
    all_goals rfl

/-- C10: under the guard established by the early returns, the
reconstruction of `svdapprox` is panic-free — the bounds-checked
interpreter never fails and agrees with the unchecked embedding on every
input (on out-of-range ranks the early returns fire before any checked
operation). -/
theorem claim10_panic_free (o : SvdOracle) (M : Mat) (r : Nat) (bad : Bool) :
    svdapproxChecked o M r bad = some (svdapprox o M r bad) := by
  by_cases hg : r ≤ 0 ∨ min M.nrows M.ncols < r
  · rw [svdapprox_invalid o M r bad hg]
    unfold svdapproxChecked
    rw [if_pos hg]
  · by_cases hk : r = min M.nrows M.ncols
    · rw [svdapprox_noop o M r bad hg hk]
      unfold svdapproxChecked
      rw [if_neg hg, if_pos hk]
    · cases h3 : o.req_ok M.nrows M.ncols with
      | false =>
        rw [svdapprox_reqfail o M r bad hg hk h3]
        unfold svdapproxChecked
        rw [if_neg hg, if_neg hk, if_neg (by simp [h3])]
      | true =>
        rw [svdapprox_main o M r bad hg hk h3]
        unfold svdapproxChecked
        rw [if_neg hg, if_neg hk, if_pos h3,
          svdTruncateChecked_eq o M r bad (by omega) (by omega)]
        rfl
